import Mathlib

/-!
Verification development for the recona-go client library.

The definitions below are a shallow embedding of the library's request
engine, translated from the Go source:

* the paginated search aggregator `SearchAll` shared verbatim by
  `DomainService.SearchAll` (services/domain.go) and
  `HostService.SearchAll` (services/host.go) — embedded once,
  polymorphic in the item type;
* the authenticated transport `MakeAuthenticatedRequest`
  (internal/http.go);
* client construction `NewClientWithOptions` / `NewClient` and the
  runtime reconfiguration `SetRateLimit` (recona.go);
* the JSON decode step used by the per-resource `GetDetails` wrappers.

Go slices are `List`, Go `error` results are `Except`/`Option`,
`time.Duration` (an int64 nanosecond count) is `Int`, and `float64`
fields that the code only ever compares against zero are `ℚ`.
-/

namespace Recona

/-- Pagination parameters of one search request
(models.Pagination: limit, offset). -/
structure Pagination where
  limit : Nat
  offset : Nat
deriving DecidableEq, Repr

/-- Page size of the aggregator: `const pageSize = 100` in
DomainService.SearchAll / HostService.SearchAll. -/
def pageSize : Nat := 100

/-- Safety cap of the aggregator: `const maxResults = 10000`. -/
def maxResults : Nat := 10000

/-- The limit actually used for the request at `offset`, given the current
value of the mutable `limit` variable.  Mirrors
`remaining := maxResults - offset; if remaining < pageSize { limit = remaining }`. -/
def effLimit (offset limit : Nat) : Nat :=
  if maxResults - offset < pageSize then maxResults - offset else limit

/-- The `models.Pagination` value sent for the page request at `offset`. -/
def pageReq (offset limit : Nat) : Pagination :=
  { limit := effLimit offset limit, offset := offset }

/-- One run of the `for offset < maxResults` loop of `SearchAll`.

The backend `b` stands for `s.Search` specialised to the base query: it maps
the pagination of a page request to either the page's item slice or an error.
Besides the value the Go function returns (`Except`: error annotated with the
offset at which it occurred, or the accumulated items), the embedding also
returns the list of page requests issued, in order, so that claims about the
request trace can be stated.

The recursion is driven by a fuel parameter: every continuing iteration has a
nonempty page, so `offset` grows by at least one while the loop runs only for
`offset < maxResults`; hence fuel `maxResults` (used by `searchAll`) always
suffices, and the fuel-exhaustion branch returns exactly what the normal
loop-exit branch returns (see `searchAllLoop_fuel_succ`). -/
def searchAllLoop (b : Pagination → Except E (List α)) :
    Nat → Nat → Nat → List α → Except (Nat × E) (List α) × List Pagination
  | 0, _, _, acc => (Except.ok acc, [])
  | fuel + 1, offset, limit, acc =>
    if offset < maxResults then
      match b (pageReq offset limit) with
      | Except.error e => (Except.error (offset, e), [pageReq offset limit])
      | Except.ok items =>
        if items.length = 0 then
          (Except.ok acc, [pageReq offset limit])
        else
          if items.length < effLimit offset limit then
            (Except.ok (acc ++ items), [pageReq offset limit])
          else
            ((searchAllLoop b fuel (offset + items.length) (effLimit offset limit) (acc ++ items)).1,
              pageReq offset limit ::
                (searchAllLoop b fuel (offset + items.length) (effLimit offset limit) (acc ++ items)).2)
    else
      (Except.ok acc, [])

/-- `SearchAll` of DomainService / HostService: run the pagination loop from
`offset = 0` with `limit = pageSize` and an empty accumulator. -/
def searchAll (b : Pagination → Except E (List α)) :
    Except (Nat × E) (List α) × List Pagination :=
  searchAllLoop b maxResults 0 pageSize []

/-- Relation between consecutive page requests issued against an error-free
backend with pages `pages`: the later request's offset is the earlier one's
advanced by exactly the earlier page's returned count, hence strictly larger. -/
def pageStep (pages : Pagination → List α) (p q : Pagination) : Prop :=
  p.offset < q.offset ∧ q.offset = p.offset + (pages p).length

/-- An error-free backend: every page request succeeds with the page `pages`
assigns to it. -/
def okBackend (E : Type) {α : Type} (pages : Pagination → List α) :
    Pagination → Except E (List α) :=
  fun p => Except.ok (pages p)

instance {E A : Type} [DecidableEq E] [DecidableEq A] : DecidableEq (Except E A) := fun x y =>
  match x, y with
  | Except.ok a, Except.ok b =>
    if h : a = b then Decidable.isTrue (congrArg Except.ok h)
    else Decidable.isFalse (fun hc => h (Except.ok.inj hc))
  | Except.error e, Except.error f =>
    if h : e = f then Decidable.isTrue (congrArg Except.error h)
    else Decidable.isFalse (fun hc => h (Except.error.inj hc))
  | Except.ok _, Except.error _ => Decidable.isFalse (fun hc => Except.noConfusion hc)
  | Except.error _, Except.ok _ => Decidable.isFalse (fun hc => Except.noConfusion hc)

/-- Fake backend for the full-pages termination scenario: exactly 100 items
per page for 3 pages (offsets 0, 100, 200), then an empty page.  The item at
position `i` of the page at `offset` is the number `offset + i`, so the
aggregate order is observable. -/
def backendThreePages : Pagination → Except String (List Nat) := fun p =>
  Except.ok (if p.offset < 300 then (List.range pageSize).map (fun i => p.offset + i) else [])

/-- Fake backend for the short-page scenario: 100 items at offset 0, then 50
items on every later page. -/
def backendShortPage : Pagination → Except String (List Nat) := fun p =>
  Except.ok ((List.range (if p.offset = 0 then 100 else 50)).map (fun i => p.offset + i))

/-- Fake backend that always returns a full page: exactly the requested
`limit` items, indefinitely. -/
def backendAlwaysFull : Pagination → Except String (List Unit) := fun p =>
  Except.ok (List.replicate p.limit ())

/-- Fake backend for the error-propagation scenario: page 1 (offset 0)
succeeds with a full page, page 2 (offset 100) fails, later pages would
succeed. -/
def backendFailSecond : Pagination → Except String (List Unit) := fun p =>
  if p.offset = 100 then Except.error "page failure"
  else Except.ok (List.replicate 100 ())

/-! ## Client construction and rate-limit reconfiguration (recona.go)

`time.Duration` is an `Int` counting nanoseconds; `float64` rate values are
embedded as `ℚ` (they are only ever compared against zero).  The mutable
limiter of the Go `Client` is represented by the `requestsPerSec` and
`burstSize` fields of `ClientConfig`; `SetRateLimit` returns the post-call
state together with `some` error message on validation failure (the Go
method returns early before touching the limiter in that case). -/

/-- `internal.DefaultRateLimit = 10` (internal/http.go). -/
def DefaultRateLimit : ℚ := 10

/-- `internal.DefaultBurst = 2` (internal/http.go). -/
def DefaultBurst : Int := 2

/-- Go `time.Second` in nanoseconds. -/
def second : Int := 1000000000

/-- The default request timeout applied by `NewClientWithOptions`: 60s. -/
def defaultTimeout : Int := 60 * second

/-- `ClientOptions` of recona.go; the Go zero value is all-zero. -/
structure ClientOptions where
  timeout : Int
  requestsPerSec : ℚ
  burstSize : Int
deriving DecidableEq

/-- The configuration state of a constructed `Client` that the claims are
about: token, HTTP timeout, and the two limiter parameters. -/
structure ClientConfig where
  token : String
  timeout : Int
  requestsPerSec : ℚ
  burstSize : Int
deriving DecidableEq

/-- `NewClientWithOptions` (recona.go): defaults substituted for non-positive
options, then the token validated, then the client assembled. -/
def NewClientWithOptions (token : String) (opts : ClientOptions) : Except String ClientConfig :=
  let opts1 := if opts.timeout ≤ 0 then { opts with timeout := defaultTimeout } else opts
  let opts2 :=
    if opts1.requestsPerSec ≤ 0 then { opts1 with requestsPerSec := DefaultRateLimit } else opts1
  let opts3 := if opts2.burstSize ≤ 0 then { opts2 with burstSize := DefaultBurst } else opts2
  if token = "" then Except.error "token is required"
  else
    Except.ok
      { token := token, timeout := opts3.timeout,
        requestsPerSec := opts3.requestsPerSec, burstSize := opts3.burstSize }

/-- `NewClient` (recona.go): construction with the zero `ClientOptions`. -/
def NewClient (token : String) : Except String ClientConfig :=
  NewClientWithOptions token { timeout := 0, requestsPerSec := 0, burstSize := 0 }

/-- `Client.SetRateLimit` (recona.go): validate both parameters, then update
both; on a validation failure the method returns before mutating anything,
so the returned state equals the input state. -/
def SetRateLimit (c : ClientConfig) (requestsPerSec : ℚ) (burstSize : Int) :
    ClientConfig × Option String :=
  if requestsPerSec ≤ 0 then (c, some "requests per second must be positive")
  else if burstSize ≤ 0 then (c, some "burst size must be positive")
  else ({ c with requestsPerSec := requestsPerSec, burstSize := burstSize }, none)

/-! ## Authenticated transport (internal/http.go) -/

/-- `authorizationHeaderName` constant. -/
def authorizationHeaderName : String := "Authorization"

/-- `authorizationType` constant; note the trailing space. -/
def authorizationType : String := "Bearer "

/-- `contentTypeHeaderName` constant. -/
def contentTypeHeaderName : String := "Content-Type"

/-- `acceptHeaderName` constant. -/
def acceptHeaderName : String := "Accept"

/-- `defaultContentType` constant. -/
def defaultContentType : String := "application/json"

/-- An outbound HTTP request as assembled by `MakeAuthenticatedRequest`:
method, URL, the header pairs set on it (in the order the source sets them),
and the optional JSON-encoded body. -/
structure HttpRequest where
  method : String
  url : String
  headers : List (String × String)
  body : Option String
deriving DecidableEq

/-- An HTTP response: status code and the full body text it would yield when
read to the end. -/
structure HttpResponse where
  statusCode : Int
  body : String
deriving DecidableEq

/-- The request built by `MakeAuthenticatedRequest` lines 41-48: exactly three
headers are set on the fresh request. -/
def buildRequest (method url token : String) (body : Option String) : HttpRequest :=
  { method := method, url := url,
    headers :=
      [(authorizationHeaderName, authorizationType ++ token),
       (contentTypeHeaderName, defaultContentType),
       (acceptHeaderName, defaultContentType)],
    body := body }

/-- Classification of a transport outcome, `MakeAuthenticatedRequest`
lines 50-63: a transport failure is wrapped; a status ≥ 400 is turned into an
error carrying the status code and the eagerly read body text; otherwise the
response is returned unchanged (its body not consumed). -/
def sendAndClassify (send : HttpRequest → Except String HttpResponse) (req : HttpRequest) :
    Except String HttpResponse :=
  match send req with
  | Except.error e => Except.error ("request failed: " ++ e)
  | Except.ok resp =>
    if 400 ≤ resp.statusCode then
      Except.error ("API error " ++ toString resp.statusCode ++ ": " ++ resp.body)
    else Except.ok resp

/-- `MakeAuthenticatedRequest` (internal/http.go): marshal the body when
present, build the request with the three headers, send it, classify the
outcome.  `send` stands for `client.Do`; `marshal` for `json.Marshal`, with
`none` for a value that has no JSON representation. -/
def MakeAuthenticatedRequest {β : Type} (send : HttpRequest → Except String HttpResponse)
    (marshal : β → Option String) (method url token : String) (body : Option β) :
    Except String HttpResponse :=
  match body with
  | none => sendAndClassify send (buildRequest method url token none)
  | some b =>
    match marshal b with
    | none => Except.error "failed to marshal request body"
    | some data => sendAndClassify send (buildRequest method url token (some data))

/-- The request body `MakeAuthenticatedRequest` actually hands to the
transport for a given call: `some none` for a body-less call (GET details),
`some (some data)` for a body-carrying call whose body marshals to `data`
(every POST search), and `none` when marshalling fails and no request is
issued at all. -/
def marshalledBody {β : Type} (marshal : β → Option String) : Option β → Option (Option String)
  | none => some none
  | some b =>
    match marshal b with
    | none => none
    | some data => some (some data)

/-- Optional-whitespace test used when header values are written. -/
def isOWS (c : Char) : Bool := c == ' ' || c == '\t'

/-- Modelled from the spec: the spec states that the literal header observed
for an empty token is "Bearer " trimmed to "Bearer" — the trimming is done by
Go's net/http when writing header values (surrounding spaces and tabs are
stripped), code that lives outside this repository.  This function is that
write-time normalisation. -/
def writtenHeaderValue (v : String) : String :=
  String.mk (((v.data.dropWhile isOWS).reverse.dropWhile isOWS).reverse)

/-! ## JSON decoding of GetDetails responses (services/domain.go, internal/http.go)

The response body is represented by the JSON document it parses to.  The Go
target of the decode is a `**Domain` (a `var domain *models.Domain` passed by
address), so the decode semantics of encoding/json for a pointer destination
apply: the JSON literal `null` leaves the pointer nil without error; any
other document is decoded into a fresh value.  The element decoder is a
parameter — the field-by-field decoding of the big model structs is plumbing
the claims do not touch. -/

/-- A parsed JSON document. -/
inductive JsonVal where
  | null
  | boolVal (b : Bool)
  | num (q : ℚ)
  | str (s : String)
  | arr (elems : List JsonVal)
  | obj (fields : List (String × JsonVal))

/-- Decode into a pointer-typed destination (encoding/json semantics used by
`internal.DecodeJSON` when the target is `*models.Domain` or `*models.Host`):
`null` yields a nil pointer and no error. -/
def decodePtr {α : Type} (decodeElem : JsonVal → Except String α) :
    JsonVal → Except String (Option α)
  | JsonVal.null => Except.ok none
  | v => Except.map some (decodeElem v)

/-- `DomainService.GetDetails` (services/domain.go lines 32-53;
`HostService.GetDetails` is identical with the `/hosts/` path): issue the GET
request, wrap a request error, decode the body into a pointer, wrap a decode
error, and otherwise return the decoded pointer — possibly nil — with no
error.  `makeRequest` stands for `s.client.MakeRequest` returning the parsed
body of a successful response. -/
def GetDetails {α : Type} (makeRequest : String → Except String JsonVal)
    (decodeElem : JsonVal → Except String α) (id : String) : Except String (Option α) :=
  match makeRequest ("/domains/" ++ id) with
  | Except.error e => Except.error ("failed to get domain details for ID " ++ id ++ ": " ++ e)
  | Except.ok body =>
    match decodePtr decodeElem body with
    | Except.error e => Except.error ("failed to decode domain details response: " ++ e)
    | Except.ok d => Except.ok d

/-! ## Lemmas about the pagination loop -/

theorem effLimit_eq_min (offset limit : Nat)
    (h : limit = pageSize ∨ maxResults - offset < pageSize) :
    effLimit offset limit = min pageSize (maxResults - offset) := by
  have hp : pageSize = 100 := rfl
  have hM : maxResults = 10000 := rfl
  unfold effLimit
  rcases h with h | h
  · subst h; split <;> omega
  · rw [if_pos h]; omega

theorem effLimit_inv (offset limit len : Nat)
    (h : limit = pageSize ∨ maxResults - offset < pageSize) :
    effLimit offset limit = pageSize ∨ maxResults - (offset + len) < pageSize := by
  have hp : pageSize = 100 := rfl
  have hM : maxResults = 10000 := rfl
  unfold effLimit
  rcases h with h | h
  · subst h
    split
    · right; omega
    · left; rfl
  · right; omega

/-- The fuel parameter of `searchAllLoop` is invisible as soon as it is large
enough that it cannot run out before `offset` passes `maxResults` — which
`searchAll`'s choice `fuel = maxResults` guarantees, since every continuing
iteration advances `offset` by at least one. -/
theorem searchAllLoop_fuel_succ {E α : Type} (b : Pagination → Except E (List α)) :
    ∀ (fuel offset limit : Nat) (acc : List α), maxResults ≤ fuel + offset →
      searchAllLoop b (fuel + 1) offset limit acc = searchAllLoop b fuel offset limit acc := by
  intro fuel
  induction fuel with
  | zero =>
    intro offset limit acc h
    rw [Nat.zero_add] at h
    simp [searchAllLoop, Nat.not_lt.mpr h]
  | succ fuel ih =>
    intro offset limit acc h
    by_cases hg : offset < maxResults
    · rw [searchAllLoop, searchAllLoop, if_pos hg, if_pos hg]
      cases hb : b (pageReq offset limit) with
      | error e => rfl
      | ok items =>
        by_cases h0 : items.length = 0
        · simp [h0]
        · by_cases hs : items.length < effLimit offset limit
          · simp [h0, hs]
          · have hlen : 1 ≤ items.length := Nat.one_le_iff_ne_zero.mpr h0
            simp only [if_neg h0, if_neg hs]
            rw [ih (offset + items.length) (effLimit offset limit) (acc ++ items) (by omega)]
    · rw [searchAllLoop, searchAllLoop, if_neg hg, if_neg hg]

@[simp] theorem okBackend_apply (E : Type) {α : Type} (pages : Pagination → List α)
    (p : Pagination) : okBackend E pages p = Except.ok (pages p) := rfl

/-- Against an error-free backend, the loop returns the accumulator followed
by the concatenation, in request order, of the pages of exactly the requests
it traced. -/
theorem searchAllLoop_flatten (E : Type) {α : Type} (pages : Pagination → List α) :
    ∀ (fuel offset limit : Nat) (acc : List α),
      (searchAllLoop (okBackend E pages) fuel offset limit acc).1
        = Except.ok (acc ++
            (((searchAllLoop (okBackend E pages) fuel offset limit acc).2).map
              pages).flatten) := by
  intro fuel
  induction fuel with
  | zero => intro offset limit acc; simp [searchAllLoop]
  | succ fuel ih =>
    intro offset limit acc
    by_cases hg : offset < maxResults
    · rw [searchAllLoop, if_pos hg]
      by_cases h0 : (pages (pageReq offset limit)).length = 0
      · have hnil : pages (pageReq offset limit) = [] := List.length_eq_zero.mp h0
        simp [okBackend, h0, hnil]
      · by_cases hs : (pages (pageReq offset limit)).length < effLimit offset limit
        · simp [okBackend, h0, hs]
        · simp only [okBackend_apply, if_neg h0, if_neg hs]
          rw [ih (offset + (pages (pageReq offset limit)).length) (effLimit offset limit)
            (acc ++ pages (pageReq offset limit))]
          simp [List.append_assoc]
    · rw [searchAllLoop, if_neg hg]; simp

/-- The first traced request, when one exists, is at the loop's entry
offset. -/
theorem searchAllLoop_head_offset {E α : Type} (b : Pagination → Except E (List α))
    (fuel offset limit : Nat) (acc : List α) :
    ∀ p ∈ ((searchAllLoop b fuel offset limit acc).2).head?, p.offset = offset := by
  cases fuel with
  | zero => simp [searchAllLoop]
  | succ fuel =>
    by_cases hg : offset < maxResults
    · rw [searchAllLoop, if_pos hg]
      cases hb : b (pageReq offset limit) with
      | error e => simp [pageReq]
      | ok items =>
        by_cases h0 : items.length = 0
        · simp [h0, pageReq]
        · by_cases hs : items.length < effLimit offset limit
          · simp [h0, hs, pageReq]
          · simp [h0, hs, pageReq]
    · rw [searchAllLoop, if_neg hg]; simp

/-- Consecutive traced requests against an error-free backend are linked by
`pageStep`: offsets strictly increase, each advanced by exactly the previous
page's returned count. -/
theorem searchAllLoop_chain (E : Type) {α : Type} (pages : Pagination → List α) :
    ∀ (fuel offset limit : Nat) (acc : List α),
      List.Chain' (pageStep pages)
        ((searchAllLoop (okBackend E pages) fuel offset limit acc).2) := by
  intro fuel
  induction fuel with
  | zero => intro offset limit acc; simp [searchAllLoop]
  | succ fuel ih =>
    intro offset limit acc
    by_cases hg : offset < maxResults
    · rw [searchAllLoop, if_pos hg]
      by_cases h0 : (pages (pageReq offset limit)).length = 0
      · simp [okBackend, h0]
      · by_cases hs : (pages (pageReq offset limit)).length < effLimit offset limit
        · simp [okBackend, h0, hs]
        · simp only [okBackend_apply, if_neg h0, if_neg hs]
          rw [List.chain'_cons']
          refine ⟨fun q hq => ?_, ih _ _ _⟩
          have hqo := searchAllLoop_head_offset (okBackend E pages) fuel
            (offset + (pages (pageReq offset limit)).length) (effLimit offset limit)
            (acc ++ pages (pageReq offset limit)) q hq
          have hpos : 0 < (pages (pageReq offset limit)).length := Nat.pos_of_ne_zero h0
          constructor
          · rw [hqo]
            show offset < offset + (pages (pageReq offset limit)).length
            omega
          · show q.offset = offset + (pages (pageReq offset limit)).length
            exact hqo
    · rw [searchAllLoop, if_neg hg]; simp

/-- Every traced request is issued below the hard cap and with
`limit = min pageSize (maxResults - offset)` — for any backend, as long as
the carried `limit` satisfies the loop's invariant (true at entry, where
`limit = pageSize`). -/
theorem searchAllLoop_limits {E α : Type} (b : Pagination → Except E (List α)) :
    ∀ (fuel offset limit : Nat) (acc : List α),
      limit = pageSize ∨ maxResults - offset < pageSize →
      ∀ p ∈ (searchAllLoop b fuel offset limit acc).2,
        p.offset < maxResults ∧ p.limit = min pageSize (maxResults - p.offset) := by
  intro fuel
  induction fuel with
  | zero => intro offset limit acc _; simp [searchAllLoop]
  | succ fuel ih =>
    intro offset limit acc hlim
    have hcur : ∀ q : Pagination, q = pageReq offset limit →
        q.offset < maxResults ∨ ¬offset < maxResults →
        offset < maxResults →
        q.offset < maxResults ∧ q.limit = min pageSize (maxResults - q.offset) := by
      intro q hq _ hg
      subst hq
      refine ⟨hg, ?_⟩
      show effLimit offset limit = min pageSize (maxResults - offset)
      exact effLimit_eq_min offset limit hlim
    by_cases hg : offset < maxResults
    · rw [searchAllLoop, if_pos hg]
      cases hb : b (pageReq offset limit) with
      | error e =>
        intro p hp
        simp only [List.mem_singleton] at hp
        exact hcur p hp (Or.inl (hp ▸ hg)) hg
      | ok items =>
        by_cases h0 : items.length = 0
        · intro p hp
          simp only [h0, if_pos] at hp
          simp only [List.mem_singleton] at hp
          exact hcur p hp (Or.inl (hp ▸ hg)) hg
        · by_cases hs : items.length < effLimit offset limit
          · intro p hp
            simp only [if_neg h0, if_pos hs] at hp
            simp only [List.mem_singleton] at hp
            exact hcur p hp (Or.inl (hp ▸ hg)) hg
          · intro p hp
            simp only [if_neg h0, if_neg hs] at hp
            rcases List.mem_cons.mp hp with hp | hp
            · exact hcur p hp (Or.inl (hp ▸ hg)) hg
            · exact ih (offset + items.length) (effLimit offset limit) (acc ++ items)
                (effLimit_inv offset limit items.length hlim) p hp
    · rw [searchAllLoop, if_neg hg]; simp

/-- If the backend fails at any request the loop traced, the loop's result is
exactly that failure, annotated with the offset at which the failing page was
requested; no accumulated items survive. -/
theorem searchAllLoop_error {E α : Type} (b : Pagination → Except E (List α)) :
    ∀ (fuel offset limit : Nat) (acc : List α) (p : Pagination) (e : E),
      p ∈ (searchAllLoop b fuel offset limit acc).2 → b p = Except.error e →
      (searchAllLoop b fuel offset limit acc).1 = Except.error (p.offset, e) := by
  intro fuel
  induction fuel with
  | zero => intro offset limit acc p e hp; simp [searchAllLoop] at hp
  | succ fuel ih =>
    intro offset limit acc p e hp hpe
    by_cases hg : offset < maxResults
    · rw [searchAllLoop, if_pos hg] at hp ⊢
      cases hb : b (pageReq offset limit) with
      | error e0 =>
        simp only [hb, List.mem_singleton] at hp
        subst hp
        rw [hpe] at hb
        have he : e0 = e := (Except.error.inj hb).symm
        subst he
        show (Except.error ((pageReq offset limit).offset, e0), _).1 = _
        rfl
      | ok items =>
        by_cases h0 : items.length = 0
        · simp only [hb, h0, if_pos, List.mem_singleton] at hp
          subst hp
          rw [hpe] at hb
          exact absurd hb (fun hc => Except.noConfusion hc)
        · by_cases hs : items.length < effLimit offset limit
          · simp only [hb, if_neg h0, if_pos hs, List.mem_singleton] at hp
            subst hp
            rw [hpe] at hb
            exact absurd hb (fun hc => Except.noConfusion hc)
          · simp only [hb, if_neg h0, if_neg hs] at hp ⊢
            rcases List.mem_cons.mp hp with hp | hp
            · subst hp
              rw [hpe] at hb
              exact absurd hb (fun hc => Except.noConfusion hc)
            · exact ih (offset + items.length) (effLimit offset limit) (acc ++ items) p e hp hpe
    · rw [searchAllLoop, if_neg hg] at hp
      simp at hp

/-- Against a backend that never over-delivers (each page holds at most the
requested limit), the loop's successful result holds at most
`acc.length + (maxResults - offset)` items. -/
theorem searchAllLoop_cap {E α : Type} (b : Pagination → Except E (List α))
    (hb : ∀ p items, b p = Except.ok items → items.length ≤ p.limit) :
    ∀ (fuel offset limit : Nat) (acc : List α),
      limit = pageSize ∨ maxResults - offset < pageSize →
      ∀ l, (searchAllLoop b fuel offset limit acc).1 = Except.ok l →
        l.length ≤ acc.length + (maxResults - offset) := by
  intro fuel
  induction fuel with
  | zero =>
    intro offset limit acc _ l hl
    simp only [searchAllLoop] at hl
    have : acc = l := Except.ok.inj hl
    subst this
    omega
  | succ fuel ih =>
    intro offset limit acc hlim l hl
    have hmin : effLimit offset limit = min pageSize (maxResults - offset) :=
      effLimit_eq_min offset limit hlim
    have hle : effLimit offset limit ≤ maxResults - offset := by rw [hmin]; omega
    by_cases hg : offset < maxResults
    · rw [searchAllLoop, if_pos hg] at hl
      cases hbp : b (pageReq offset limit) with
      | error e => simp [hbp] at hl
      | ok items =>
        have hil : items.length ≤ effLimit offset limit := hb (pageReq offset limit) items hbp
        by_cases h0 : items.length = 0
        · simp only [hbp, h0, if_pos] at hl
          have : acc = l := Except.ok.inj hl
          subst this
          omega
        · by_cases hs : items.length < effLimit offset limit
          · simp only [hbp, if_neg h0, if_pos hs] at hl
            have : acc ++ items = l := Except.ok.inj hl
            subst this
            simp only [List.length_append]
            omega
          · simp only [hbp, if_neg h0, if_neg hs] at hl
            have := ih (offset + items.length) (effLimit offset limit) (acc ++ items)
              (effLimit_inv offset limit items.length hlim) l hl
            simp only [List.length_append] at this
            omega
    · rw [searchAllLoop, if_neg hg] at hl
      have : acc = l := Except.ok.inj hl
      subst this
      omega

/-- Against a backend that always returns a full page (exactly the requested
limit), the loop fills the remaining quota to the hard cap, provided the fuel
cannot run out first and the carried-limit invariant holds. -/
theorem searchAllLoop_full :
    ∀ (fuel offset limit : Nat) (acc : List Unit),
      maxResults ≤ fuel + offset →
      limit = pageSize ∨ maxResults - offset < pageSize →
      (searchAllLoop backendAlwaysFull fuel offset limit acc).1
        = Except.ok (acc ++ List.replicate (maxResults - offset) ()) := by
  intro fuel
  induction fuel with
  | zero =>
    intro offset limit acc hfuel _
    rw [Nat.zero_add] at hfuel
    have : maxResults - offset = 0 := by omega
    simp [searchAllLoop, this]
  | succ fuel ih =>
    intro offset limit acc hfuel hlim
    have hp : pageSize = 100 := rfl
    by_cases hg : offset < maxResults
    · have hmin : effLimit offset limit = min pageSize (maxResults - offset) :=
        effLimit_eq_min offset limit hlim
      have hle : effLimit offset limit ≤ maxResults - offset := by rw [hmin]; omega
      have hpos : 0 < effLimit offset limit := by rw [hmin]; omega
      rw [searchAllLoop, if_pos hg]
      have hbp : backendAlwaysFull (pageReq offset limit)
          = Except.ok (List.replicate (effLimit offset limit) ()) := rfl
      rw [hbp]
      have hlen : (List.replicate (effLimit offset limit) ()).length = effLimit offset limit :=
        List.length_replicate _ _
      have h0 : ¬(List.replicate (effLimit offset limit) ()).length = 0 := by omega
      have hs : ¬(List.replicate (effLimit offset limit) ()).length < effLimit offset limit := by
        omega
      simp only [if_neg h0, if_neg hs]
      rw [hlen]
      have := ih (offset + effLimit offset limit) (effLimit offset limit)
        (acc ++ List.replicate (effLimit offset limit) ())
        (by omega) (effLimit_inv offset limit (effLimit offset limit) hlim)
      rw [this]
      rw [List.append_assoc]
      have hsplit : maxResults - offset
          = effLimit offset limit + (maxResults - (offset + effLimit offset limit)) := by
        omega
      rw [hsplit, List.replicate_add]
    · rw [searchAllLoop, if_neg hg]
      have : maxResults - offset = 0 := by omega
      simp [this]

/-- Every request the loop traces, except possibly the last, was answered
with a nonempty, full page (at least the requested limit): the loop
continues only after full pages, so a short or empty page always ends the
run. -/
theorem searchAllLoop_full_pages {E α : Type} (b : Pagination → Except E (List α)) :
    ∀ (fuel offset limit : Nat) (acc : List α),
      List.Chain'
        (fun p _ => ∃ items, b p = Except.ok items ∧ items ≠ [] ∧ p.limit ≤ items.length)
        (searchAllLoop b fuel offset limit acc).2 := by
  intro fuel
  induction fuel with
  | zero => intro offset limit acc; simp [searchAllLoop]
  | succ fuel ih =>
    intro offset limit acc
    by_cases hg : offset < maxResults
    · rw [searchAllLoop, if_pos hg]
      cases hb : b (pageReq offset limit) with
      | error e => simp
      | ok items =>
        by_cases h0 : items.length = 0
        · simp [h0]
        · by_cases hs : items.length < effLimit offset limit
          · simp [h0, hs]
          · simp only [if_neg h0, if_neg hs]
            rw [List.chain'_cons']
            refine ⟨fun q _ => ?_, ih _ _ _⟩
            refine ⟨items, hb, fun hnil => h0 (by rw [hnil]; rfl), ?_⟩
            show effLimit offset limit ≤ items.length
            omega
    · rw [searchAllLoop, if_neg hg]; simp

/-! ## Claim theorems -/

set_option maxRecDepth 400000 in
/-- Claim C1: for every sequence of successful page responses, SearchAll
requests pages in strictly increasing offset order starting at offset 0 with
page size 100 (each subsequent request's offset advanced by the previous
page's returned count), and returns the concatenation of the pages' items in
server-returned order; for a backend returning exactly 100 items per page
for 3 pages and then an empty page, it returns 300 items requested at
offsets 0, 100, 200 (the final, empty page being probed at offset 300). -/
theorem searchAll_ordered_concatenation :
    (∀ (E α : Type) (pages : Pagination → List α),
      (searchAll (okBackend E pages)).1
        = Except.ok ((((searchAll (okBackend E pages)).2).map pages).flatten)
      ∧ (∀ p ∈ ((searchAll (okBackend E pages)).2).head?, p.offset = 0)
      ∧ List.Chain' (pageStep pages) ((searchAll (okBackend E pages)).2)
      ∧ (∀ p ∈ (searchAll (okBackend E pages)).2,
          p.offset < maxResults ∧ p.limit = min pageSize (maxResults - p.offset)))
    ∧ searchAll backendThreePages
        = (Except.ok (List.range 300),
           [{ limit := 100, offset := 0 }, { limit := 100, offset := 100 },
            { limit := 100, offset := 200 }, { limit := 100, offset := 300 }]) := by
  constructor
  · intro E α pages
    refine ⟨?_, ?_, ?_, ?_⟩
    · have h := searchAllLoop_flatten E pages maxResults 0 pageSize []
      simpa [searchAll] using h
    · exact searchAllLoop_head_offset _ maxResults 0 pageSize []
    · exact searchAllLoop_chain E pages maxResults 0 pageSize []
    · exact searchAllLoop_limits _ maxResults 0 pageSize [] (Or.inl rfl)
  · decide

/-- Witness for C1 at a concrete error-free backend whose every page is
empty: the single traced request is at offset 0. -/
theorem searchAll_ordered_concatenation_witness :
    (⟨100, 0⟩ : Pagination) ∈ ((searchAll (okBackend String (fun _ => ([] : List Nat)))).2).head?
    ∧ (⟨100, 0⟩ : Pagination).offset = 0 :=
  ⟨by decide,
    (searchAll_ordered_concatenation.1 String Nat (fun _ => [])).2.1 ⟨100, 0⟩ (by decide)⟩

/-- Claim C2: against a backend whose pages never exceed the requested limit,
SearchAll issues every request below offset 10000 with
limit = min(100, 10000 - offset), and a successful result has at most 10000
items; a backend of indefinitely full pages yields exactly 10000 items. -/
theorem searchAll_hard_cap :
    (∀ (E α : Type) (b : Pagination → Except E (List α)),
      (∀ p items, b p = Except.ok items → items.length ≤ p.limit) →
      (∀ p ∈ (searchAll b).2,
        p.offset < maxResults ∧ p.limit = min pageSize (maxResults - p.offset))
      ∧ (∀ l, (searchAll b).1 = Except.ok l → l.length ≤ maxResults))
    ∧ (searchAll backendAlwaysFull).1 = Except.ok (List.replicate maxResults ()) := by
  constructor
  · intro E α b hb
    constructor
    · exact searchAllLoop_limits b maxResults 0 pageSize [] (Or.inl rfl)
    · intro l hl
      have h := searchAllLoop_cap b hb maxResults 0 pageSize [] (Or.inl rfl) l hl
      simpa using h
  · have h := searchAllLoop_full maxResults 0 pageSize [] (by omega) (Or.inl rfl)
    simpa [searchAll] using h

/-- Witness for C2 at the all-pages-empty backend, which trivially never
over-delivers: its successful result is within the cap. -/
theorem searchAll_hard_cap_witness : ([] : List Nat).length ≤ maxResults :=
  (searchAll_hard_cap.1 String Nat (okBackend String (fun _ => []))
    (fun p items h => by
      have he : ([] : List Nat) = items := Except.ok.inj h
      rw [← he]
      exact Nat.zero_le _)).2 [] (by decide)

set_option maxRecDepth 400000 in
/-- Claim C3: a page response with fewer items than the requested limit
(including zero) always ends the run — every traced request except possibly
the last was answered with a nonempty full page — and for a backend
returning 100 then 50 items, SearchAll returns the 150 accumulated items
after exactly two requests. -/
theorem searchAll_short_page_stops :
    (∀ (E α : Type) (b : Pagination → Except E (List α)),
      List.Chain'
        (fun p _ => ∃ items, b p = Except.ok items ∧ items ≠ [] ∧ p.limit ≤ items.length)
        (searchAll b).2)
    ∧ searchAll backendShortPage
        = (Except.ok (List.range 150),
           [{ limit := 100, offset := 0 }, { limit := 100, offset := 100 }]) := by
  constructor
  · intro E α b
    exact searchAllLoop_full_pages b maxResults 0 pageSize []
  · decide

/-- Claim C4: if the backend fails at a page SearchAll requested, the whole
aggregation fails with that error annotated with the failing request's
offset, and no items — not even those of earlier successful pages — are
returned; concretely, with page 2 (offset 100) of a 3-page sequence failing,
the result is the error at offset 100 after two requests. -/
theorem searchAll_error_aborts :
    (∀ (E α : Type) (b : Pagination → Except E (List α)) (p : Pagination) (e : E),
      p ∈ (searchAll b).2 → b p = Except.error e →
      (searchAll b).1 = Except.error (p.offset, e))
    ∧ searchAll backendFailSecond
        = (Except.error (100, "page failure"),
           [{ limit := 100, offset := 0 }, { limit := 100, offset := 100 }]) := by
  constructor
  · intro E α b p e hp hpe
    exact searchAllLoop_error b maxResults 0 pageSize [] p e hp hpe
  · decide

/-- Witness for C4 at the concrete failing backend. -/
theorem searchAll_error_aborts_witness :
    (searchAll backendFailSecond).1
      = Except.error ((⟨100, 100⟩ : Pagination).offset, "page failure") :=
  searchAll_error_aborts.1 String Unit backendFailSecond ⟨100, 100⟩ "page failure"
    (by decide) (by decide)

/-- Claim C5: SetRateLimit with a non-positive rate or a non-positive burst
fails validation and leaves the configuration unchanged — no partial update;
with both positive it succeeds and both parameters take effect. -/
theorem SetRateLimit_validates :
    ∀ (c : ClientConfig) (r : ℚ) (b : Int),
      ((r ≤ 0 ∨ b ≤ 0) →
        (SetRateLimit c r b).1 = c ∧ (SetRateLimit c r b).2.isSome = true)
      ∧ (0 < r → 0 < b →
          SetRateLimit c r b
            = ({ c with requestsPerSec := r, burstSize := b }, none)) := by
  intro c r b
  constructor
  · intro h
    unfold SetRateLimit
    by_cases hr : r ≤ 0
    · rw [if_pos hr]; exact ⟨rfl, rfl⟩
    · rcases h with h | h
      · exact absurd h hr
      · rw [if_neg hr, if_pos h]; exact ⟨rfl, rfl⟩
  · intro hr hb
    unfold SetRateLimit
    rw [if_neg (not_le.mpr hr), if_neg (not_le.mpr hb)]

/-- Witness for C5: a zero rate is rejected and the prior configuration kept. -/
theorem SetRateLimit_validates_witness :
    (SetRateLimit { token := "t", timeout := defaultTimeout, requestsPerSec := 10, burstSize := 2 } 0 5).1 = { token := "t", timeout := defaultTimeout, requestsPerSec := 10, burstSize := 2 }
    ∧ (SetRateLimit { token := "t", timeout := defaultTimeout, requestsPerSec := 10, burstSize := 2 } 0 5).2.isSome = true :=
  (SetRateLimit_validates _ 0 5).1 (Or.inl (le_refl 0))

/-- Claim C6: for every request MakeAuthenticatedRequest issues — body-less
or body-carrying, with `data` the body actually handed to the transport — a
response with status ≥ 400 makes it return no response and an error carrying
the numeric status code and the response body text verbatim; a status below
400 yields the response itself and no error. -/
theorem MakeAuthenticatedRequest_status_classification :
    ∀ (β : Type) (send : HttpRequest → Except String HttpResponse) (marshal : β → Option String)
      (method url token : String) (body : Option β) (data : Option String)
      (resp : HttpResponse),
      marshalledBody marshal body = some data →
      send (buildRequest method url token data) = Except.ok resp →
      (400 ≤ resp.statusCode →
        MakeAuthenticatedRequest send marshal method url token body
          = Except.error ("API error " ++ toString resp.statusCode ++ ": " ++ resp.body))
      ∧ (resp.statusCode < 400 →
        MakeAuthenticatedRequest send marshal method url token body = Except.ok resp) := by
  intro β send marshal method url token body data resp hbody hsend
  have hcall : MakeAuthenticatedRequest send marshal method url token body
      = sendAndClassify send (buildRequest method url token data) := by
    cases body with
    | none =>
      have hd : (none : Option String) = data := Option.some.inj hbody
      rw [← hd]
      rfl
    | some b =>
      cases hm : marshal b with
      | none => simp [marshalledBody, hm] at hbody
      | some d =>
        simp only [marshalledBody, hm, Option.some.injEq] at hbody
        rw [← hbody]
        simp only [MakeAuthenticatedRequest, hm]
  rw [hcall]
  unfold sendAndClassify
  rw [hsend]
  constructor
  · intro h400
    simp [h400]
  · intro hlt
    simp [not_le.mpr hlt]

/-- Witness for C6: a body-carrying POST whose response is a 404 with body
text is classified as the corresponding API error. -/
theorem MakeAuthenticatedRequest_status_classification_witness :
    MakeAuthenticatedRequest (fun _ => Except.ok { statusCode := 404, body := "missing" })
        (fun (_ : Unit) => some "encoded-query") "POST" "https://api.recona.io/domains/search"
        "tok" (some ())
      = Except.error ("API error " ++ toString (404 : Int) ++ ": " ++ "missing") :=
  (MakeAuthenticatedRequest_status_classification Unit
    (fun _ => Except.ok { statusCode := 404, body := "missing" })
    (fun (_ : Unit) => some "encoded-query")
    "POST" "https://api.recona.io/domains/search" "tok" (some ()) (some "encoded-query")
    { statusCode := 404, body := "missing" }
    rfl rfl).1 (by decide)

/-- Claim C7: MakeAuthenticatedRequest sets exactly three headers —
Authorization, Content-Type (application/json), Accept (application/json) —
with the Authorization value "Bearer " ++ token; for the empty token the
header value as written on the wire is the literal "Bearer", the trailing
space being trimmed by the write-time normalisation. -/
theorem MakeAuthenticatedRequest_headers :
    ∀ (method url token : String) (body : Option String),
      (buildRequest method url token body).headers
        = [(authorizationHeaderName, authorizationType ++ token),
           (contentTypeHeaderName, defaultContentType),
           (acceptHeaderName, defaultContentType)]
      ∧ ((buildRequest method url token body).headers.map Prod.fst)
        = [authorizationHeaderName, contentTypeHeaderName, acceptHeaderName]
      ∧ authorizationType ++ token = "Bearer " ++ token
      ∧ writtenHeaderValue (authorizationType ++ "") = "Bearer" := by
  intro method url token body
  refine ⟨rfl, rfl, rfl, ?_⟩
  decide

/-- Claim C8: a client built by NewClient (all options unspecified) has a
60-second timeout, 10 requests per second, and burst size 2. -/
theorem NewClient_defaults :
    ∀ (token : String) (c : ClientConfig), NewClient token = Except.ok c →
      c.timeout = 60 * second ∧ c.requestsPerSec = 10 ∧ c.burstSize = 2 := by
  intro token c h
  by_cases ht : token = ""
  · simp [NewClient, NewClientWithOptions, ht] at h
  · simp [NewClient, NewClientWithOptions, ht] at h
    rw [← h]
    exact ⟨rfl, rfl, rfl⟩

/-- Witness for C8 at a concrete token. -/
theorem NewClient_defaults_witness :
    ({ token := "t", timeout := 60 * second, requestsPerSec := 10, burstSize := 2 } : ClientConfig).timeout = 60 * second
    ∧ ({ token := "t", timeout := 60 * second, requestsPerSec := 10, burstSize := 2 } : ClientConfig).requestsPerSec = 10
    ∧ ({ token := "t", timeout := 60 * second, requestsPerSec := 10, burstSize := 2 } : ClientConfig).burstSize = 2 :=
  NewClient_defaults "t"
    { token := "t", timeout := 60 * second, requestsPerSec := 10, burstSize := 2 }
    (by decide)

/-- Claim C9: NewClientWithOptions fails exactly when the token is empty;
non-positive numeric options are silently replaced by the defaults (60s, 10,
2) instead of being rejected — construction never fails on them. -/
theorem NewClientWithOptions_token_only_validation :
    ∀ (token : String) (opts : ClientOptions),
      ((∃ e, NewClientWithOptions token opts = Except.error e) ↔ token = "")
      ∧ (∀ c, NewClientWithOptions token opts = Except.ok c →
          c.token = token
          ∧ c.timeout = (if opts.timeout ≤ 0 then defaultTimeout else opts.timeout)
          ∧ c.requestsPerSec =
              (if opts.requestsPerSec ≤ 0 then DefaultRateLimit else opts.requestsPerSec)
          ∧ c.burstSize = (if opts.burstSize ≤ 0 then DefaultBurst else opts.burstSize)) := by
  intro token opts
  constructor
  · constructor
    · rintro ⟨e, he⟩
      by_contra ht
      simp [NewClientWithOptions, ht] at he
    · intro ht
      exact ⟨"token is required", by simp [NewClientWithOptions, ht]⟩
  · intro c hc
    by_cases ht : token = ""
    · simp [NewClientWithOptions, ht] at hc
    · by_cases h1 : opts.timeout ≤ 0 <;> by_cases h2 : opts.requestsPerSec ≤ 0 <;>
        by_cases h3 : opts.burstSize ≤ 0 <;>
        simp [NewClientWithOptions, ht, h1, h2, h3] at hc <;>
        rw [← hc] <;>
        simp [h1, h2, h3]

/-- Witness for C9: with all-negative options and a nonempty token,
construction succeeds with the default configuration. -/
theorem NewClientWithOptions_token_only_validation_witness :
    ({ token := "t", timeout := defaultTimeout, requestsPerSec := DefaultRateLimit, burstSize := DefaultBurst } : ClientConfig).token = "t"
    ∧ ({ token := "t", timeout := defaultTimeout, requestsPerSec := DefaultRateLimit, burstSize := DefaultBurst } : ClientConfig).timeout = (if ({ timeout := -1, requestsPerSec := -1, burstSize := -1 } : ClientOptions).timeout ≤ 0 then defaultTimeout else ({ timeout := -1, requestsPerSec := -1, burstSize := -1 } : ClientOptions).timeout)
    ∧ ({ token := "t", timeout := defaultTimeout, requestsPerSec := DefaultRateLimit, burstSize := DefaultBurst } : ClientConfig).requestsPerSec = (if ({ timeout := -1, requestsPerSec := -1, burstSize := -1 } : ClientOptions).requestsPerSec ≤ 0 then DefaultRateLimit else ({ timeout := -1, requestsPerSec := -1, burstSize := -1 } : ClientOptions).requestsPerSec)
    ∧ ({ token := "t", timeout := defaultTimeout, requestsPerSec := DefaultRateLimit, burstSize := DefaultBurst } : ClientConfig).burstSize = (if ({ timeout := -1, requestsPerSec := -1, burstSize := -1 } : ClientOptions).burstSize ≤ 0 then DefaultBurst else ({ timeout := -1, requestsPerSec := -1, burstSize := -1 } : ClientOptions).burstSize) :=
  (NewClientWithOptions_token_only_validation "t"
    { timeout := -1, requestsPerSec := -1, burstSize := -1 }).2
    { token := "t", timeout := defaultTimeout, requestsPerSec := DefaultRateLimit, burstSize := DefaultBurst }
    (by decide)

/-- Claim C10: a GetDetails call whose successful response body is the JSON
literal null returns a nil result pointer and no error — neither a decode
error nor a non-nil value. -/
theorem GetDetails_null_yields_nil :
    ∀ (α : Type) (makeRequest : String → Except String JsonVal)
      (decodeElem : JsonVal → Except String α) (id : String),
      makeRequest ("/domains/" ++ id) = Except.ok JsonVal.null →
      GetDetails makeRequest decodeElem id = Except.ok none := by
  intro α mk dec id h
  unfold GetDetails
  rw [h]
  rfl

/-- Witness for C10 at a concrete backend always answering null and a
decoder that rejects everything. -/
theorem GetDetails_null_yields_nil_witness :
    GetDetails (fun _ => Except.ok JsonVal.null) (fun _ => Except.error "no decode")
        "example.com"
      = Except.ok (none : Option Unit) :=
  GetDetails_null_yields_nil Unit (fun _ => Except.ok JsonVal.null)
    (fun _ => Except.error "no decode") "example.com" rfl

end Recona
